import Mathlib

/-
Shallow embedding of the random-data-provider client, src/lib/commands.js
(the Commands builder module and the Client class).

Modelling conventions, fixed once for the whole development:
* JavaScript numbers are embedded as exact rationals `ℚ`.  The source
  computes with IEEE doubles; every concrete input used below is chosen so
  that the double rounding does not affect the compared digits.  The
  special values produced by JS arithmetic (`Infinity`, `-Infinity`,
  `NaN`) are made explicit in the type `JNum`, and the JS coercions
  `null ↦ 0`, `undefined ↦ NaN` used by `<` are made explicit in
  `JVal.toJNum`.
* `uuid()` is modelled by a fresh-number counter carried in the client
  state (`reqIdCounter`); the code relies only on the freshness of the
  generated identifiers.
* The JS object `this._events` is modelled as an insertion-ordered
  association list `List (ℕ × String)`; property assignment is `track`,
  lookup is `lookupEvents`, and `this._events = {}` is `reset`.
* Side effects (websocket sends, `clearInterval`, `ws.close()`,
  `process.exit`) are collected in an output list of `Effect`s, in the
  order the source performs them.  A thrown JS exception is embedded as
  the `StepResult.threw` outcome, carrying the state and output produced
  before the throw (mutations of `this` survive a throw in JS).
* `process.exit` is modelled by the `exited` field: once it is set, the
  process is gone, so the top-level `step` function processes no further
  messages.
-/

/-- JS numeric values as produced by the arithmetic in `_processSet`:
a finite number (exact rational), the two infinities, or `NaN`. -/
inductive JNum where
  | num (q : ℚ)
  | posInf
  | negInf
  | nan
deriving DecidableEq, Repr

/-- JS strict less-than on numeric values: any comparison with `NaN` is
false, `-Infinity` is below every other value, `Infinity` above. -/
def JNum.lt : JNum → JNum → Bool
  | .num a, .num b => decide (a < b)
  | .num _, .posInf => true
  | .negInf, .num _ => true
  | .negInf, .posInf => true
  | _, _ => false

/-- JS values that the fields `this._minDiv` / `this._maxDiv` and message
fields can hold: `undefined`, `null`, or a number. -/
inductive JVal where
  | undef
  | null
  | num (q : ℚ)
deriving DecidableEq, Repr

/-- ToNumber coercion applied by the JS `<` operator to its operands:
`undefined` coerces to `NaN`, `null` to `0`. -/
def JVal.toJNum : JVal → JNum
  | .undef => .nan
  | .null => .num 0
  | .num q => .num q

/-- JS division `a / b` where `b` is an element access that may be out of
range (`undefined`): division by `undefined` gives `NaN`; division of a
nonzero number by zero gives a signed infinity; `0 / 0` gives `NaN`. -/
def jsDiv (a : ℚ) (b : Option ℚ) : JNum :=
  match b with
  | none => .nan
  | some b =>
      if b = 0 then (if a = 0 then .nan else if 0 < a then .posInf else .negInf)
      else .num (a / b)

/-- Embedding of `parseFloat(x.toPrecision(3))` on a finite value: round
half away from zero to three significant decimal digits.  `Int.log 10 |q|`
is the decimal exponent of `q`; the mantissa is scaled into `[100, 1000)`,
rounded with `⌊· + 1/2⌋` (round half away from zero, the tie rule of
`Number.prototype.toPrecision`), and scaled back. -/
def prec3 (q : ℚ) : ℚ :=
  if q = 0 then 0
  else
    (if q < 0 then -1 else 1) *
      (⌊|q| * (10 : ℚ) ^ ((2 : ℤ) - Int.log 10 |q|) + 1 / 2⌋ : ℚ) *
      (10 : ℚ) ^ (Int.log 10 |q| - (2 : ℤ))

/-- Embedding of `parseFloat(parseFloat(x).toPrecision(3))` on a general
JS numeric value: `toPrecision(3)` of `Infinity` / `NaN` prints them
verbatim and `parseFloat` reads them back, so only finite values round. -/
def JNum.toPrecision3 : JNum → JNum
  | .num q => .num (prec3 q)
  | v => v

/-- Modelled from the spec: the rounding policy the spec asserts for the
match evaluator, "round half away from zero to 3 decimals" (three decimal
places of precision).  This follows the spec's words, for comparison with
the source's `toPrecision(3)` (three significant digits, `prec3`). -/
def round3spec (q : ℚ) : ℚ :=
  (if q < 0 then -1 else 1) * (⌊|q| * 1000 + 1 / 2⌋ : ℚ) / 1000

/-- Evaluation helper: `Int.log 10 r = e` follows from the bracketing
`10 ^ e ≤ r < 10 ^ (e + 1)`. -/
theorem intLog10_eq {r : ℚ} (hr : 0 < r) (e : ℤ)
    (h1 : (10 : ℚ) ^ e ≤ r) (h2 : r < (10 : ℚ) ^ (e + 1)) :
    Int.log 10 r = e := by
  have hb : 1 < (10 : ℕ) := by norm_num
  have hle : e ≤ Int.log 10 r := by
    refine (Int.zpow_le_iff_le_log hb hr).mp ?_
    exact_mod_cast h1
  have hlt : Int.log 10 r < e + 1 := by
    refine (Int.lt_zpow_iff_log_lt hb hr).mp ?_
    exact_mod_cast h2
  omega

/-- Evaluation helper for `prec3` at a positive rational: supply the
decimal exponent `e`, the rounded mantissa `m`, and the normal form `r`
of `m * 10 ^ (e - 2)`. -/
theorem prec3_eq_of {q r : ℚ} (hq : 0 < q) (e m : ℤ)
    (h1 : (10 : ℚ) ^ e ≤ q) (h2 : q < (10 : ℚ) ^ (e + 1))
    (h3 : (m : ℚ) ≤ q * (10 : ℚ) ^ ((2 : ℤ) - e) + 1 / 2)
    (h4 : q * (10 : ℚ) ^ ((2 : ℤ) - e) + 1 / 2 < (m : ℚ) + 1)
    (h5 : (m : ℚ) * (10 : ℚ) ^ (e - (2 : ℤ)) = r) :
    prec3 q = r := by
  have habs : |q| = q := abs_of_pos hq
  have hlog : Int.log 10 |q| = e := by
    rw [habs]; exact intLog10_eq hq e h1 h2
  have hfl : ⌊|q| * (10 : ℚ) ^ ((2 : ℤ) - Int.log 10 |q|) + 1 / 2⌋ = m := by
    rw [hlog, habs]
    exact Int.floor_eq_iff.mpr ⟨h3, by exact_mod_cast h4⟩
  rw [prec3, if_neg (ne_of_gt hq), if_neg (not_lt.mpr hq.le), hfl, one_mul, hlog, h5]

example : prec3 (10 / 9) = 111 / 100 :=
  prec3_eq_of (by norm_num) 0 111 (by norm_num) (by norm_num) (by norm_num)
    (by norm_num) (by norm_num)

example : prec3 2 = 2 :=
  prec3_eq_of (by norm_num) 0 200 (by norm_num) (by norm_num) (by norm_num)
    (by norm_num) (by norm_num)

example : prec3 (2 / 3) = 667 / 1000 :=
  prec3_eq_of (by norm_num) (-1) 667 (by norm_num) (by norm_num) (by norm_num)
    (by norm_num) (by norm_num)

example : round3spec (10 / 9) = 1111 / 1000 := by
  have h : ⌊|(10 / 9 : ℚ)| * 1000 + 1 / 2⌋ = 1111 := by
    rw [abs_of_pos (by norm_num)]
    exact Int.floor_eq_iff.mpr ⟨by norm_num, by norm_num⟩
  rw [round3spec, if_neg (by norm_num), h]
  norm_num

/-- Outbound commands, as built by the `Commands` module
(src/lib/commands.js): `getEvents`, `getData`, `confirm`.  The `eventId`
of a confirm is the value read from `this._events[reqId]`, which is
`undefined` (`none`) when the request id is not tracked. -/
inductive Command where
  | getEvents
  | getData (eventId : String)
  | confirm (eventId : Option String) (set : String) (n : ℕ) (div : JNum)
deriving DecidableEq, Repr

/-- Observable side effects of the client, in the order the source
performs them: a websocket send stamped with a request id, cancelling the
pull interval, closing the websocket, exiting the process. -/
inductive Effect where
  | send (c : Command) (reqId : ℕ)
  | clearPullInterval
  | closeWs
  | exitProcess (code : ℕ)
deriving DecidableEq, Repr

/-- JS exceptions that the modelled fragment can throw: `SyntaxError`
from `JSON.parse` on malformed text, `TypeError` from destructuring or
`Object.keys` applied to `null`. -/
inductive JsError where
  | syntaxError
  | typeError
deriving DecidableEq, Repr

/-- Value of an object-typed message field as seen by the classifier
`typeof data.x === 'object'`: the field is absent (or not object-typed),
is JSON `null`, or is a proper value.  `typeof` answers `'object'` for
both `null` and proper objects. -/
inductive ObjField (α : Type) where
  | absent
  | null
  | val (a : α)
deriving DecidableEq, Repr

/-- A parsed inbound message; field values not present in the JSON text
are `absent` / `undef` / `none`, matching what destructuring yields.
`events` holds the key list of the events object, `data` the pair
`(set1, set2)`, `reqId` the `_reqId` field (request ids are modelled as
naturals, see the header comment). -/
structure JMsg where
  events : ObjField (List String)
  minDiv : JVal
  maxDiv : JVal
  data : ObjField (List ℚ × List ℚ)
  message : Option String
  reqId : Option ℕ
deriving DecidableEq, Repr

/-- The mutable fields of the `Client` object, plus the uuid freshness
counter and the process/resource status used to express the lifecycle
claims. -/
structure ClientState where
  reqIdCounter : ℕ
  events : List (ℕ × String)
  minDiv : JVal
  maxDiv : JVal
  pullIntervalActive : Bool
  wsOpen : Bool
  exited : Option ℕ
deriving DecidableEq, Repr

/-- An inbound websocket frame: either text that `JSON.parse` rejects, or
a parsed message. -/
inductive Inbound where
  | malformed
  | msg (m : JMsg)
deriving DecidableEq, Repr

/-- Outcome of handling one inbound frame: normal return, or a thrown JS
exception.  Both carry the state and the effects produced up to that
point (mutations of `this` and already-performed sends survive a throw). -/
inductive StepResult where
  | ok (s : ClientState) (out : List Effect)
  | threw (e : JsError) (s : ClientState) (out : List Effect)
deriving DecidableEq, Repr

/-- Effects carried by a step result. -/
def StepResult.outEffects : StepResult → List Effect
  | .ok _ out => out
  | .threw _ _ out => out

/-- State carried by a step result. -/
def StepResult.state : StepResult → ClientState
  | .ok s _ => s
  | .threw _ s _ => s

/-- Lookup `this._events[reqId]`: the event id tracked against a request
id, `undefined` (`none`) when the key is unknown (the Correlator's
`resolve`). -/
def lookupEvents (l : List (ℕ × String)) (r : ℕ) : Option String :=
  (l.find? (fun p => p.1 == r)).map (fun p => p.2)

/-- Assignment `this._events[reqId] = eventId` (the Correlator's
`track`): overwrite in place when the key exists, append otherwise
(JS objects keep insertion order). -/
def track (l : List (ℕ × String)) (r : ℕ) (e : String) : List (ℕ × String) :=
  if l.any (fun p => p.1 == r) then l.map (fun p => if p.1 == r then (r, e) else p)
  else l ++ [(r, e)]

/-- Assignment `this._events = {}` (the Correlator's `reset`). -/
def reset : List (ℕ × String) := []

/-- Embedding of `Client._processSet`: for each index `n` of the primary
series, compute `div = parseFloat(parseFloat(set1[n] / set2[n]).toPrecision(3))`
and collect `Commands.confirm(eventId, set, Number(n), div)` whenever
`this._minDiv < div && div < this._maxDiv`.  `for (let n in set1)`
enumerates exactly the indices of the primary series; a reference access
out of range is `undefined` (`s2[n]? = none`). -/
def processSet (minDiv maxDiv : JVal) (eventId : Option String) (set : String)
    (s1 s2 : List ℚ) : List Command :=
  (List.range s1.length).filterMap fun n =>
    (s1[n]?).bind fun a =>
      let div := JNum.toPrecision3 (jsDiv a s2[n]?)
      if JNum.lt minDiv.toJNum div && JNum.lt div maxDiv.toJNum then
        some (Command.confirm eventId set n div)
      else none

/-- One call of `Client._send(command)` with the defaulted fresh request
id: stamp the command with the current counter value and send it. -/
def sendStamped (acc : ClientState × List Effect) (c : Command) :
    ClientState × List Effect :=
  ({acc.1 with reqIdCounter := acc.1.reqIdCounter + 1},
   acc.2 ++ [Effect.send c acc.1.reqIdCounter])

/-- Embedding of `Client._onDataHandler`: destructure the data pair
(throwing a `TypeError` when the `data` field is `null`), look the
request id up in `this._events` with no found-check, and run
`_processSet` twice, each confirmation being sent immediately with a
fresh request id. -/
def onData (s : ClientState) (df : ObjField (List ℚ × List ℚ)) (reqId : Option ℕ) :
    StepResult :=
  match df with
  | .val (s1, s2) =>
      let eventId := reqId.bind (lookupEvents s.events)
      let cmds := processSet s.minDiv s.maxDiv eventId "set1" s1 s2 ++
        processSet s.minDiv s.maxDiv eventId "set2" s2 s1
      let r := cmds.foldl sendStamped (s, [])
      .ok r.1 r.2
  | _ => .threw .typeError s []

/-- One iteration of the `Object.keys(events).forEach` loop in
`Client._onEventsHandler`: draw a fresh request id, track it against the
event id, and send `getData` stamped with it. -/
def trackAndRequest (acc : ClientState × List Effect) (eventId : String) :
    ClientState × List Effect :=
  let reqId := acc.1.reqIdCounter
  ({acc.1 with reqIdCounter := reqId + 1, events := track acc.1.events reqId eventId},
   acc.2 ++ [Effect.send (Command.getData eventId) reqId])

/-- Embedding of `Client._onEventsHandler`: first clear `this._events`
and store the message's `minDiv` / `maxDiv` (these assignments happen
before the keys of `events` are enumerated), then iterate over the event
keys; `Object.keys(null)` throws a `TypeError`. -/
def onEvents (s : ClientState) (minDiv maxDiv : JVal) (ev : ObjField (List String)) :
    StepResult :=
  match ev with
  | .val keys =>
      let r := keys.foldl trackAndRequest
        ({s with events := reset, minDiv := minDiv, maxDiv := maxDiv}, [])
      .ok r.1 r.2
  | _ => .threw .typeError {s with events := reset, minDiv := minDiv, maxDiv := maxDiv} []

/-- Embedding of `Client.stop`: `clearInterval(this._pullInterval)`, then
`this._ws.close()`, then `process.exit(code)` — in that order. -/
def stop (s : ClientState) (code : ℕ) : StepResult :=
  .ok {s with pullIntervalActive := false, wsOpen := false, exited := some code}
    [Effect.clearPullInterval, Effect.closeWs, Effect.exitProcess code]

/-- Embedding of `Client._onMessage`: `JSON.parse` is not guarded, so a
malformed frame throws a `SyntaxError` out of the handler; a parsed
message is classified by the `switch (true)` shape tests in source
order — `typeof data.events === 'object'` (true for `null` and objects),
then `typeof data.data === 'object'`, then the terminal strings; an
unrecognized shape falls through and is ignored. -/
def onMessage (s : ClientState) (inb : Inbound) : StepResult :=
  match inb with
  | .malformed => .threw .syntaxError s []
  | .msg m =>
      if m.events ≠ ObjField.absent then onEvents s m.minDiv m.maxDiv m.events
      else if m.data ≠ ObjField.absent then onData s m.data m.reqId
      else if m.message = some "Lose" then stop s 1
      else if m.message = some "Win" then stop s 0
      else .ok s []

/-- One reaction of the whole client to an inbound frame: once
`process.exit` has run, the process is gone and no handler executes;
otherwise the frame goes through `_onMessage`. -/
def step (s : ClientState) (inb : Inbound) : StepResult :=
  match s.exited with
  | some _ => .ok s []
  | none => onMessage s inb

/-- Membership characterization of `processSet`: a command is in its
output iff it is the confirm built at some index of the primary series
whose rounded quotient passes the bounds check. -/
theorem mem_processSet_iff {minDiv maxDiv : JVal} {eventId : Option String}
    {set : String} {s1 s2 : List ℚ} {c : Command} :
    c ∈ processSet minDiv maxDiv eventId set s1 s2 ↔
      ∃ n a, s1[n]? = some a ∧
        (JNum.lt minDiv.toJNum (JNum.toPrecision3 (jsDiv a s2[n]?)) &&
          JNum.lt (JNum.toPrecision3 (jsDiv a s2[n]?)) maxDiv.toJNum) = true ∧
        c = Command.confirm eventId set n (JNum.toPrecision3 (jsDiv a s2[n]?)) := by
  simp only [processSet, List.mem_filterMap, List.mem_range, Option.bind_eq_some,
    Option.ite_none_right_eq_some, Option.some.injEq]
  constructor
  · rintro ⟨n, _, a, ha, hcond, rfl⟩
    exact ⟨n, a, ha, hcond, rfl⟩
  · rintro ⟨n, a, ha, hcond, rfl⟩
    exact ⟨n, (List.getElem?_eq_some.mp ha).1, a, ha, hcond, rfl⟩

/-- Closed form of the send loop of `_onDataHandler`: the commands are
sent in order, stamped with consecutive fresh request ids. -/
theorem foldl_sendStamped (cs : List Command) (st : ClientState) (out : List Effect) :
    cs.foldl sendStamped (st, out) =
      ({st with reqIdCounter := st.reqIdCounter + cs.length},
       out ++ ((List.range' st.reqIdCounter cs.length).zip cs).map
         (fun p => Effect.send p.2 p.1)) := by
  induction cs generalizing st out with
  | nil => simp
  | cons c cs ih =>
      rw [List.foldl_cons, show sendStamped (st, out) c =
        ({st with reqIdCounter := st.reqIdCounter + 1},
         out ++ [Effect.send c st.reqIdCounter]) from rfl, ih]
      simp [List.range'_succ, List.zip_cons_cons]
      omega

/-- Closed form of the `forEach` loop of `_onEventsHandler`, under the
invariant that every tracked request id is older than the counter: the
keys are tracked in order against consecutive fresh request ids, and one
`getData` is sent per key with the matching id. -/
theorem foldl_trackAndRequest (keys : List String) (st : ClientState) (out : List Effect)
    (hfresh : ∀ p ∈ st.events, p.1 < st.reqIdCounter) :
    keys.foldl trackAndRequest (st, out) =
      ({st with reqIdCounter := st.reqIdCounter + keys.length,
                events := st.events ++ (List.range' st.reqIdCounter keys.length).zip keys},
       out ++ ((List.range' st.reqIdCounter keys.length).zip keys).map
         (fun p => Effect.send (Command.getData p.2) p.1)) := by
  induction keys generalizing st out with
  | nil => simp
  | cons k ks ih =>
      have hnot : st.events.any (fun p => p.1 == st.reqIdCounter) = false := by
        rw [List.any_eq_false]
        intro x hx
        simp only [beq_iff_eq]
        exact Nat.ne_of_lt (hfresh x hx)
      have htr : trackAndRequest (st, out) k =
          ({st with reqIdCounter := st.reqIdCounter + 1,
                    events := st.events ++ [(st.reqIdCounter, k)]},
           out ++ [Effect.send (Command.getData k) st.reqIdCounter]) := by
        simp [trackAndRequest, track, hnot]
      rw [List.foldl_cons, htr, ih]
      · simp [List.range'_succ, List.zip_cons_cons]
        omega
      · intro p hp
        rcases List.mem_append.mp hp with hold | hnew
        · exact Nat.lt_succ_of_lt (hfresh p hold)
        · simp at hnew
          simp [hnew]

/-- Tracking overwrites in place: after `track`, looking the same key up
finds the new value (existing-key branch). -/
theorem find?_map_overwrite (l : List (ℕ × String)) (r : ℕ) (e : String)
    (h : l.any (fun p => p.1 == r) = true) :
    (l.map (fun p => if p.1 == r then (r, e) else p)).find? (fun p => p.1 == r) =
      some (r, e) := by
  induction l with
  | nil => simp at h
  | cons p l ih =>
      by_cases hp : (p.1 == r) = true
      · simp [List.find?, hp]
      · have h' : l.any (fun p => p.1 == r) = true := by
          simp [List.any_cons, hp] at h
          simpa using h
        simp only [List.map_cons, if_neg hp, List.find?]
        rw [show (p.1 == r) = false from Bool.eq_false_iff.mpr hp]
        exact ih h'

/-- Tracking appends a fresh key: when no entry matches the key, the
lookup reaches the appended pair (fresh-key branch). -/
theorem find?_append_fresh (l : List (ℕ × String)) (r : ℕ) (e : String)
    (h : l.any (fun p => p.1 == r) = false) :
    (l ++ [(r, e)]).find? (fun p => p.1 == r) = some (r, e) := by
  induction l with
  | nil => simp [List.find?]
  | cons p l ih =>
      rw [List.any_cons, Bool.or_eq_false_iff] at h
      rw [List.cons_append, List.find?]
      rw [h.1]
      exact ih h.2

/-- Correlator round trip: resolving a request id right after tracking it
returns the tracked event id. -/
theorem lookupEvents_track (l : List (ℕ × String)) (r : ℕ) (e : String) :
    lookupEvents (track l r e) r = some e := by
  unfold lookupEvents track
  by_cases h : l.any (fun p => p.1 == r) = true
  · rw [if_pos h, find?_map_overwrite l r e h]
    rfl
  · rw [if_neg h, find?_append_fresh l r e (Bool.eq_false_iff.mpr h)]
    rfl

/-- Alive processes react through `_onMessage`: unfolding of `step` when
`process.exit` has not run. -/
theorem step_of_not_exited {s : ClientState} (h : s.exited = none) (inb : Inbound) :
    step s inb = onMessage s inb := by
  unfold step
  rw [h]

/-- C9: for every request id, resolving it after it has been tracked
against an event id returns that tracked event id; after a reset
(performed by `_onEventsHandler` before any events-update repopulates the
table), resolving any request id tracked before returns `undefined`
(`NotFound`). -/
theorem C9_track_resolve_reset :
    (∀ (l : List (ℕ × String)) (r : ℕ) (e : String),
        lookupEvents (track l r e) r = some e) ∧
      ∀ (r : ℕ), lookupEvents reset r = none :=
  ⟨lookupEvents_track, fun _ => rfl⟩

/-- C10: an inbound message whose `events` field is JSON `null` passes the
`typeof data.events === 'object'` test, so it is routed to the events
handler regardless of any other fields it carries; the handler clears the
event table and stores the bounds, then throws a `TypeError` when
`Object.keys(null)` enumerates the keys — the message is neither ignored
nor handled as any other shape. -/
theorem C10_events_null (s : ClientState) (h : s.exited = none)
    (mn mx : JVal) (df : ObjField (List ℚ × List ℚ)) (msgF : Option String)
    (rq : Option ℕ) :
    step s (.msg ⟨.null, mn, mx, df, msgF, rq⟩) =
      .threw .typeError {s with events := reset, minDiv := mn, maxDiv := mx} [] := by
  simp [step, h, onMessage, onEvents]

/-- Witness for C10 at a concrete running state carrying a tracked entry,
and a message that also has a well-formed data pair and a terminal string:
the `events: null` field still wins the classification and throws. -/
theorem C10_events_null_witness :
    (⟨3, [(0, "x")], JVal.num 5, JVal.num 6, true, true, none⟩ : ClientState).exited =
        none ∧
      step ⟨3, [(0, "x")], JVal.num 5, JVal.num 6, true, true, none⟩
        (.msg ⟨.null, JVal.num 1, JVal.num 2, .val ([1], [1]), some "Win", some 0⟩) =
      .threw .typeError ⟨3, [], JVal.num 1, JVal.num 2, true, true, none⟩ [] :=
  ⟨rfl, C10_events_null _ rfl (JVal.num 1) (JVal.num 2) (.val ([1], [1]))
    (some "Win") (some 0)⟩

/-- C8: a terminal "Win" message stops the session with exit code 0 and a
terminal "Lose" message with exit code 1 (non-zero); in both cases the
pull interval is cancelled before the websocket is closed and the process
exit is signalled; once the process has exited, any further inbound frame
(in particular a duplicate terminal message) is a no-op — no second
cleanup, no crash. -/
theorem C8_terminal (s : ClientState) (h : s.exited = none)
    (mn mx : JVal) (rq : Option ℕ) :
    (step s (.msg ⟨.absent, mn, mx, .absent, some "Win", rq⟩) =
        .ok {s with pullIntervalActive := false, wsOpen := false, exited := some 0}
          [.clearPullInterval, .closeWs, .exitProcess 0]) ∧
      (step s (.msg ⟨.absent, mn, mx, .absent, some "Lose", rq⟩) =
        .ok {s with pullIntervalActive := false, wsOpen := false, exited := some 1}
          [.clearPullInterval, .closeWs, .exitProcess 1]) ∧
      ∀ (s' : ClientState) (code : ℕ), s'.exited = some code →
        ∀ inb, step s' inb = .ok s' [] := by
  refine ⟨?_, ?_, ?_⟩
  · simp [step, h, onMessage, stop]
  · simp [step, h, onMessage, stop]
  · intro s' code h' inb
    simp [step, h']

/-- Witness for C8: a concrete running state terminated by "Lose" with
exit code 1, and the same "Lose" frame delivered again to the terminated
state leaving it untouched with no effects. -/
theorem C8_terminal_witness :
    (⟨0, [], JVal.null, JVal.null, true, true, none⟩ : ClientState).exited = none ∧
      step ⟨0, [], JVal.null, JVal.null, true, true, none⟩
          (.msg ⟨.absent, .undef, .undef, .absent, some "Lose", none⟩) =
        .ok ⟨0, [], JVal.null, JVal.null, false, false, some 1⟩
          [.clearPullInterval, .closeWs, .exitProcess 1] ∧
      step ⟨0, [], JVal.null, JVal.null, false, false, some 1⟩
          (.msg ⟨.absent, .undef, .undef, .absent, some "Lose", none⟩) =
        .ok ⟨0, [], JVal.null, JVal.null, false, false, some 1⟩ [] :=
  ⟨rfl,
    (C8_terminal ⟨0, [], JVal.null, JVal.null, true, true, none⟩ rfl .undef .undef
        none).2.1,
    (C8_terminal ⟨0, [], JVal.null, JVal.null, true, true, none⟩ rfl .undef .undef
        none).2.2 ⟨0, [], JVal.null, JVal.null, false, false, some 1⟩ 1 rfl
      (.msg ⟨.absent, .undef, .undef, .absent, some "Lose", none⟩)⟩

/-- C7: processing an events-update message replaces the bounds with the
message's `minDiv` / `maxDiv`, discards the previously tracked event set
entirely (the new table is rebuilt from empty), tracks one fresh request
id per event key in order, and sends exactly one `getData` command per
event key, stamped with that fresh id; the tracked event ids are exactly
the message's event keys and the generated request ids are pairwise
distinct. -/
theorem C7_events_update (s : ClientState) (h : s.exited = none)
    (mn mx : JVal) (keys : List String) (df : ObjField (List ℚ × List ℚ))
    (msgF : Option String) (rq : Option ℕ) :
    (step s (.msg ⟨.val keys, mn, mx, df, msgF, rq⟩) =
        .ok {s with reqIdCounter := s.reqIdCounter + keys.length,
                    events := (List.range' s.reqIdCounter keys.length).zip keys,
                    minDiv := mn, maxDiv := mx}
          (((List.range' s.reqIdCounter keys.length).zip keys).map
            (fun p => Effect.send (Command.getData p.2) p.1))) ∧
      ((List.range' s.reqIdCounter keys.length).zip keys).map Prod.snd = keys ∧
      (((List.range' s.reqIdCounter keys.length).zip keys).map Prod.fst).Nodup := by
  refine ⟨?_, ?_, ?_⟩
  · have hfold := foldl_trackAndRequest keys
      {s with events := reset, minDiv := mn, maxDiv := mx} [] (by simp [reset])
    rw [step_of_not_exited h]
    simp only [onMessage, onEvents]
    rw [hfold]
    simp [reset]
  · rw [List.map_snd_zip]
    simp [List.length_range']
  · rw [List.map_fst_zip]
    · exact List.nodup_range' _ _
    · simp [List.length_range']

/-- Witness for C7: a running state with a stale tracked entry and
counter 5 processes an events update with keys `["a", "b"]`: the stale
entry is gone, the two keys are tracked against the fresh ids 5 and 6,
and exactly two `getData` sends go out, stamped 5 and 6. -/
theorem C7_events_update_witness :
    (⟨5, [(0, "old")], JVal.null, JVal.null, true, true, none⟩ : ClientState).exited =
        none ∧
      (step ⟨5, [(0, "old")], JVal.null, JVal.null, true, true, none⟩
          (.msg ⟨.val ["a", "b"], JVal.num 1, JVal.num 2, .absent, none, none⟩) =
        .ok ⟨7, [(5, "a"), (6, "b")], JVal.num 1, JVal.num 2, true, true, none⟩
          [.send (Command.getData "a") 5, .send (Command.getData "b") 6]) ∧
      ([(5, "a"), (6, "b")] : List (ℕ × String)).map Prod.snd = ["a", "b"] ∧
      (([(5, "a"), (6, "b")] : List (ℕ × String)).map Prod.fst).Nodup := by
  have h := C7_events_update ⟨5, [(0, "old")], JVal.null, JVal.null, true, true, none⟩
    rfl (JVal.num 1) (JVal.num 2) ["a", "b"] .absent none none
  exact ⟨rfl, h.1, by simp, by simp⟩

/-- Comparison against `NaN` on the right is always false. -/
theorem JNum.lt_nan (x : JNum) : JNum.lt x .nan = false := by
  cases x <;> rfl

/-- Comparison against `NaN` on the left is always false. -/
theorem JNum.nan_lt (x : JNum) : JNum.lt .nan x = false := by
  cases x <;> rfl

/-- C6: a zero reference value at index `i` produces an infinite or `NaN`
quotient, which no finite open interval contains, so no confirmation is
emitted at that index; and a data message containing such a pair is
handled without any fatal error (the handler returns normally). -/
theorem C6_zero_reference (mn mx : ℚ) (eventId : Option String) (set : String)
    (s1 s2 : List ℚ) (i : ℕ) (hz : s2[i]? = some 0) :
    (∀ d : JNum, Command.confirm eventId set i d ∉
        processSet (.num mn) (.num mx) eventId set s1 s2) ∧
      ∀ (s : ClientState), s.exited = none →
        ∀ (mnv mxv : JVal) (msgF : Option String) (rq : Option ℕ),
          ∃ s' out, step s (.msg ⟨.absent, mnv, mxv, .val (s1, s2), msgF, rq⟩) =
            .ok s' out := by
  constructor
  · intro d hmem
    rcases mem_processSet_iff.mp hmem with ⟨n, a, ha, hcond, heq⟩
    rw [Command.confirm.injEq] at heq
    obtain ⟨-, -, hin, -⟩ := heq
    subst hin
    rw [hz] at hcond
    rcases lt_trichotomy a 0 with hneg | rfl | hpos
    · simp [jsDiv, hneg.ne, hneg.not_lt, JNum.toPrecision3, JNum.lt, JVal.toJNum] at hcond
    · simp [jsDiv, JNum.toPrecision3, JNum.lt, JVal.toJNum] at hcond
    · simp [jsDiv, hpos.ne', hpos, JNum.toPrecision3, JNum.lt, JVal.toJNum] at hcond
  · intro s hs mnv mxv msgF rq
    exact ⟨_, _, (step_of_not_exited hs _).trans rfl⟩

/-- Witness for C6: with bounds `(-1, 1)` (which contain `0`) and the pair
`set1 = [5]`, `set2 = [0]`, no confirmation is emitted at index 0 — in
particular not one with ratio `0`, which a naive exact division would
produce and which lies strictly inside the bounds. -/
theorem C6_zero_reference_witness :
    ([0] : List ℚ)[0]? = some 0 ∧
      Command.confirm (some "e") "set1" 0 (JNum.num 0) ∉
        processSet (.num (-1)) (.num 1) (some "e") "set1" [5] [0] :=
  ⟨rfl, (C6_zero_reference (-1) 1 (some "e") "set1" [5] [0] 0 rfl).1 (JNum.num 0)⟩

/-- C2 counterexample: on the claim's own scenario — bounds `(1, 2)`,
`set1 = [10, 20]`, `set2 = [5, 18]`, `set1` as primary — the code emits
the single confirmation with ratio `1.11` (`toPrecision(3)`, three
significant digits), not the claimed `1.111` (three decimal places): the
confirmation `(eventId, "set1", 1, 1.111)` is never produced. -/
theorem C2_counterexample :
    processSet (.num 1) (.num 2) (some "e") "set1" [10, 20] [5, 18] =
        [Command.confirm (some "e") "set1" 1 (.num (111 / 100))] ∧
      Command.confirm (some "e") "set1" 1 (.num (1111 / 1000)) ∉
        processSet (.num 1) (.num 2) (some "e") "set1" [10, 20] [5, 18] ∧
      (111 / 100 : ℚ) ≠ 1111 / 1000 := by
  have hp1 : prec3 2 = 2 :=
    prec3_eq_of (by norm_num) 0 200 (by norm_num) (by norm_num) (by norm_num)
      (by norm_num) (by norm_num)
  have hp2 : prec3 (10 / 9) = 111 / 100 :=
    prec3_eq_of (by norm_num) 0 111 (by norm_num) (by norm_num) (by norm_num)
      (by norm_num) (by norm_num)
  have hmain : processSet (.num 1) (.num 2) (some "e") "set1" [10, 20] [5, 18] =
      [Command.confirm (some "e") "set1" 1 (.num (111 / 100))] := by
    norm_num [processSet, jsDiv, JNum.toPrecision3, JNum.lt, JVal.toJNum, hp1, hp2,
      List.filterMap_cons, List.getElem?_cons_zero, List.getElem?_cons_succ,
      Option.some_bind, show List.range 2 = [0, 1] from rfl]
  refine ⟨hmain, ?_, by norm_num⟩
  intro hmem
  rw [hmain, List.mem_singleton, Command.confirm.injEq] at hmem
  have hdiv := hmem.2.2.2
  rw [JNum.num.injEq] at hdiv
  norm_num at hdiv

/-- C2 amended: every confirmation's ratio is the quotient rounded by the
source's `toPrecision(3)` policy — round half away from zero to three
significant decimal digits, not to three decimal places; on the scenario
bounds `(1, 2)`, `set1 = [10, 20]`, `set2 = [5, 18]` with `set1` primary,
index 0 (ratio exactly `2`, at the upper bound) emits nothing and index 1
emits exactly the confirmation `(eventId, "set1", 1, 1.11)`. -/
theorem C2_rounding_amended :
    (∀ (minDiv maxDiv : JVal) (eventId : Option String) (set : String)
        (s1 s2 : List ℚ) (c : Command),
        c ∈ processSet minDiv maxDiv eventId set s1 s2 →
        ∃ n a, s1[n]? = some a ∧
          c = Command.confirm eventId set n (JNum.toPrecision3 (jsDiv a s2[n]?))) ∧
      processSet (.num 1) (.num 2) (some "e") "set1" [10, 20] [5, 18] =
        [Command.confirm (some "e") "set1" 1 (.num (prec3 (20 / 18)))] ∧
      prec3 (20 / 18) = 111 / 100 := by
  have hp1 : prec3 2 = 2 :=
    prec3_eq_of (by norm_num) 0 200 (by norm_num) (by norm_num) (by norm_num)
      (by norm_num) (by norm_num)
  have hp2 : prec3 (10 / 9) = 111 / 100 :=
    prec3_eq_of (by norm_num) 0 111 (by norm_num) (by norm_num) (by norm_num)
      (by norm_num) (by norm_num)
  have h3 : prec3 (20 / 18) = 111 / 100 := by
    rw [show (20 / 18 : ℚ) = 10 / 9 by norm_num]
    exact hp2
  refine ⟨?_, ?_, h3⟩
  · intro minDiv maxDiv eventId set s1 s2 c hmem
    rcases mem_processSet_iff.mp hmem with ⟨n, a, ha, -, heq⟩
    exact ⟨n, a, ha, heq⟩
  · rw [h3]
    norm_num [processSet, jsDiv, JNum.toPrecision3, JNum.lt, JVal.toJNum, hp1, hp2,
      List.filterMap_cons, List.getElem?_cons_zero, List.getElem?_cons_succ,
      Option.some_bind, show List.range 2 = [0, 1] from rfl]

/-- Witness for C2: the scenario's emitted confirmation carries ratio
`1.11`, and it is the confirm built from index 1 of the primary series by
the `toPrecision(3)` rounding. -/
theorem C2_rounding_amended_witness :
    Command.confirm (some "e") "set1" 1 (.num (111 / 100)) ∈
        processSet (.num 1) (.num 2) (some "e") "set1" [10, 20] [5, 18] ∧
      ∃ n a, ([10, 20] : List ℚ)[n]? = some a ∧
        Command.confirm (some "e") "set1" 1 (.num (111 / 100)) =
          Command.confirm (some "e") "set1" n
            (JNum.toPrecision3 (jsDiv a ([5, 18] : List ℚ)[n]?)) := by
  have hmem : Command.confirm (some "e") "set1" 1 (.num (111 / 100)) ∈
      processSet (.num 1) (.num 2) (some "e") "set1" [10, 20] [5, 18] := by
    rw [C2_rounding_amended.2.1, C2_rounding_amended.2.2]
    exact List.mem_singleton.mpr rfl
  exact ⟨hmem, C2_rounding_amended.1 _ _ _ _ _ _ _ hmem⟩

/-- C5 counterexample: with equal-length series, a nonzero reference and
bounds `(1.1105, 1.1115)`, the spec's three-decimal rounding of `20 / 18`
is `1.111`, strictly inside the bounds, yet the code emits nothing (its
`toPrecision(3)` value `1.11` is outside), so the claimed "emit iff
`min < round(a / b, 3) < max`" equivalence is false. -/
theorem C5_counterexample :
    ([20] : List ℚ).length = ([18] : List ℚ).length ∧
      (18 : ℚ) ≠ 0 ∧
      (11105 / 10000 : ℚ) < round3spec (20 / 18) ∧
      round3spec (20 / 18) < 11115 / 10000 ∧
      processSet (.num (11105 / 10000)) (.num (11115 / 10000)) (some "e") "set1"
        [20] [18] = [] := by
  have hp2 : prec3 (10 / 9) = 111 / 100 :=
    prec3_eq_of (by norm_num) 0 111 (by norm_num) (by norm_num) (by norm_num)
      (by norm_num) (by norm_num)
  have hr : round3spec (20 / 18) = 1111 / 1000 := by
    have h : ⌊|(20 / 18 : ℚ)| * 1000 + 1 / 2⌋ = 1111 := by
      rw [abs_of_pos (by norm_num)]
      exact Int.floor_eq_iff.mpr ⟨by norm_num, by norm_num⟩
    rw [round3spec, if_neg (by norm_num), h]
    norm_num
  refine ⟨rfl, by norm_num, ?_, ?_, ?_⟩
  · rw [hr]; norm_num
  · rw [hr]; norm_num
  · norm_num [processSet, jsDiv, JNum.toPrecision3, JNum.lt, JVal.toJNum, hp2,
      List.filterMap_cons, List.getElem?_cons_zero, Option.some_bind,
      show List.range 1 = [0] from rfl]

/-- C5 amended: for numeric bounds, an index of the primary series with a
nonzero reference value emits its confirmation iff the quotient rounded by
the source's `toPrecision(3)` (three significant digits, `prec3`) lies
strictly inside the open interval — equality at either bound emits
nothing; the equivalence holds at every index, so no index is skipped and
several indices can emit in one evaluation. -/
theorem C5_amended (mn mx : ℚ) (eventId : Option String) (set : String)
    (s1 s2 : List ℚ) (i : ℕ) (a b : ℚ) (ha : s1[i]? = some a)
    (hb : s2[i]? = some b) (hb0 : b ≠ 0) :
    Command.confirm eventId set i (.num (prec3 (a / b))) ∈
        processSet (.num mn) (.num mx) eventId set s1 s2 ↔
      mn < prec3 (a / b) ∧ prec3 (a / b) < mx := by
  constructor
  · intro hmem
    rcases mem_processSet_iff.mp hmem with ⟨n, a', ha', hcond, heq⟩
    rw [Command.confirm.injEq] at heq
    obtain ⟨-, -, hin, -⟩ := heq
    subst hin
    rw [ha] at ha'
    obtain rfl : a = a' := Option.some_inj.mp ha'
    rw [hb] at hcond
    simpa [jsDiv, hb0, JNum.toPrecision3, JVal.toJNum, JNum.lt] using hcond
  · rintro ⟨h1, h2⟩
    refine mem_processSet_iff.mpr ⟨i, a, ha, ?_, ?_⟩
    · rw [hb]
      simp [jsDiv, hb0, JNum.toPrecision3, JVal.toJNum, JNum.lt, h1, h2]
    · rw [hb]
      simp [jsDiv, hb0, JNum.toPrecision3]

/-- Witness for C5: the scenario instance — bounds `(1, 2)`, series
`[10, 20]` and `[5, 18]`, index 1 — where the equivalence is exercised
with both sides true. -/
theorem C5_amended_witness :
    ([10, 20] : List ℚ)[1]? = some 20 ∧
      ([5, 18] : List ℚ)[1]? = some 18 ∧
      (18 : ℚ) ≠ 0 ∧
      (Command.confirm (some "e") "set1" 1 (.num (prec3 (20 / 18))) ∈
          processSet (.num 1) (.num 2) (some "e") "set1" [10, 20] [5, 18] ↔
        1 < prec3 (20 / 18) ∧ prec3 (20 / 18) < 2) :=
  ⟨rfl, rfl, by norm_num,
    C5_amended 1 2 (some "e") "set1" [10, 20] [5, 18] 1 20 18 rfl rfl
      (by norm_num)⟩

/-- C1 counterexample: a data response whose request id 99 is not tracked
(the correlator is empty, so the lookup yields `undefined`) is NOT
silently ignored: with bounds `(1, 2)` and pair `([3], [2])` the
evaluation runs and a confirm command — carrying no event id — is sent
for the in-bounds ratio `1.5`. -/
theorem C1_counterexample :
    lookupEvents ([] : List (ℕ × String)) 99 = none ∧
      step ⟨0, [], JVal.num 1, JVal.num 2, true, true, none⟩
          (.msg ⟨.absent, .undef, .undef, .val ([3], [2]), none, some 99⟩) =
        .ok ⟨1, [], JVal.num 1, JVal.num 2, true, true, none⟩
          [Effect.send (Command.confirm none "set1" 0 (.num (3 / 2))) 0] := by
  have hp1 : prec3 (3 / 2) = 3 / 2 :=
    prec3_eq_of (by norm_num) 0 150 (by norm_num) (by norm_num) (by norm_num)
      (by norm_num) (by norm_num)
  have hp2 : prec3 (2 / 3) = 667 / 1000 :=
    prec3_eq_of (by norm_num) (-1) 667 (by norm_num) (by norm_num) (by norm_num)
      (by norm_num) (by norm_num)
  have hset1 : processSet (.num 1) (.num 2) none "set1" [3] [2] =
      [Command.confirm none "set1" 0 (.num (3 / 2))] := by
    norm_num [processSet, jsDiv, JNum.toPrecision3, JNum.lt, JVal.toJNum, hp1,
      List.filterMap_cons, List.getElem?_cons_zero, Option.some_bind,
      show List.range 1 = [0] from rfl]
  have hset2 : processSet (.num 1) (.num 2) none "set2" [2] [3] = [] := by
    norm_num [processSet, jsDiv, JNum.toPrecision3, JNum.lt, JVal.toJNum, hp2,
      List.filterMap_cons, List.getElem?_cons_zero, Option.some_bind,
      show List.range 1 = [0] from rfl]
  have hstep : step ⟨0, [], JVal.num 1, JVal.num 2, true, true, none⟩
      (.msg ⟨.absent, .undef, .undef, .val ([3], [2]), none, some 99⟩) =
      onData ⟨0, [], JVal.num 1, JVal.num 2, true, true, none⟩ (.val ([3], [2]))
        (some 99) :=
    (step_of_not_exited rfl _).trans rfl
  refine ⟨rfl, ?_⟩
  rw [hstep]
  norm_num [onData, lookupEvents, hset1, hset2, sendStamped,
    show List.range' 0 1 = [0] from rfl, List.zip_cons_cons]

/-- C1 amended: a data response with an untracked request id is not
dropped — the unresolved lookup yields `undefined` as the event id and the
evaluation still runs over both series: every confirmation whose rounded
ratio lies strictly inside the bounds is sent as a confirm command
carrying no event id (and the uuid counter advances per send). -/
theorem C1_amended (s : ClientState) (h : s.exited = none) (r : ℕ)
    (hr : lookupEvents s.events r = none) (s1 s2 : List ℚ) (mnv mxv : JVal)
    (msgF : Option String) :
    step s (.msg ⟨.absent, mnv, mxv, .val (s1, s2), msgF, some r⟩) =
      .ok {s with reqIdCounter := s.reqIdCounter +
             (processSet s.minDiv s.maxDiv none "set1" s1 s2 ++
               processSet s.minDiv s.maxDiv none "set2" s2 s1).length}
        (((List.range' s.reqIdCounter
             (processSet s.minDiv s.maxDiv none "set1" s1 s2 ++
               processSet s.minDiv s.maxDiv none "set2" s2 s1).length).zip
           (processSet s.minDiv s.maxDiv none "set1" s1 s2 ++
             processSet s.minDiv s.maxDiv none "set2" s2 s1)).map
          (fun p => Effect.send p.2 p.1)) := by
  rw [step_of_not_exited h]
  simp only [onMessage, onData, Option.some_bind, hr]
  rw [foldl_sendStamped]
  simp

/-- Witness for C1: the amended behaviour at the counterexample's concrete
input — untracked request id 99, bounds `(1, 2)`, pair `([3], [2])`. -/
theorem C1_amended_witness :
    (⟨0, [], JVal.num 1, JVal.num 2, true, true, none⟩ : ClientState).exited =
        none ∧
      lookupEvents ([] : List (ℕ × String)) 99 = none ∧
      step ⟨0, [], JVal.num 1, JVal.num 2, true, true, none⟩
          (.msg ⟨.absent, .undef, .undef, .val ([3], [2]), none, some 99⟩) =
        .ok ⟨0 + (processSet (JVal.num 1) (JVal.num 2) none "set1" [3] [2] ++
               processSet (JVal.num 1) (JVal.num 2) none "set2" [2] [3]).length,
             [], JVal.num 1, JVal.num 2, true, true, none⟩
          (((List.range' 0
               (processSet (JVal.num 1) (JVal.num 2) none "set1" [3] [2] ++
                 processSet (JVal.num 1) (JVal.num 2) none "set2" [2] [3]).length).zip
             (processSet (JVal.num 1) (JVal.num 2) none "set1" [3] [2] ++
               processSet (JVal.num 1) (JVal.num 2) none "set2" [2] [3])).map
            (fun p => Effect.send p.2 p.1)) :=
  ⟨rfl, rfl,
    C1_amended ⟨0, [], JVal.num 1, JVal.num 2, true, true, none⟩ rfl 99 rfl
      [3] [2] .undef .undef none⟩

/-- C3 counterexample: a malformed frame is not caught-and-discarded — the
handler outcome is a thrown `SyntaxError`, not a normal return. -/
theorem C3_counterexample :
    step ⟨0, [], JVal.null, JVal.null, true, true, none⟩ .malformed =
        .threw .syntaxError ⟨0, [], JVal.null, JVal.null, true, true, none⟩ [] ∧
      (StepResult.threw .syntaxError
          ⟨0, [], JVal.null, JVal.null, true, true, none⟩ [] ≠
        .ok ⟨0, [], JVal.null, JVal.null, true, true, none⟩ []) :=
  ⟨rfl, by simp⟩

/-- C3 amended: on unparseable inbound text, `JSON.parse` throws a
`SyntaxError` that propagates out of `_onMessage` unguarded; no state
change and no outbound command happen before the throw, but the failure is
an uncaught exception rather than a logged-and-discarded message. -/
theorem C3_amended (s : ClientState) (h : s.exited = none) :
    step s .malformed = .threw .syntaxError s [] := by
  rw [step_of_not_exited h]
  rfl

/-- Witness for C3 at a concrete running state. -/
theorem C3_amended_witness :
    (⟨2, [(0, "e")], JVal.num 1, JVal.num 2, true, true, none⟩ : ClientState).exited =
        none ∧
      step ⟨2, [(0, "e")], JVal.num 1, JVal.num 2, true, true, none⟩ .malformed =
        .threw .syntaxError ⟨2, [(0, "e")], JVal.num 1, JVal.num 2, true, true, none⟩
          [] :=
  ⟨rfl, C3_amended ⟨2, [(0, "e")], JVal.num 1, JVal.num 2, true, true, none⟩ rfl⟩

/-- C4 counterexample: a data response with series of unequal lengths
(`[3]` against `[2, 5]`) is not discarded: the overlapping index 0 of the
primary series is evaluated and its in-bounds ratio `1.5` produces a
confirm command. -/
theorem C4_counterexample :
    ([3] : List ℚ).length ≠ ([2, 5] : List ℚ).length ∧
      step ⟨1, [(0, "e")], JVal.num 1, JVal.num 2, true, true, none⟩
          (.msg ⟨.absent, .undef, .undef, .val ([3], [2, 5]), none, some 0⟩) =
        .ok ⟨2, [(0, "e")], JVal.num 1, JVal.num 2, true, true, none⟩
          [Effect.send (Command.confirm (some "e") "set1" 0 (.num (3 / 2))) 1] := by
  have hp1 : prec3 (3 / 2) = 3 / 2 :=
    prec3_eq_of (by norm_num) 0 150 (by norm_num) (by norm_num) (by norm_num)
      (by norm_num) (by norm_num)
  have hp2 : prec3 (2 / 3) = 667 / 1000 :=
    prec3_eq_of (by norm_num) (-1) 667 (by norm_num) (by norm_num) (by norm_num)
      (by norm_num) (by norm_num)
  have hset1 : processSet (.num 1) (.num 2) (some "e") "set1" [3] [2, 5] =
      [Command.confirm (some "e") "set1" 0 (.num (3 / 2))] := by
    norm_num [processSet, jsDiv, JNum.toPrecision3, JNum.lt, JVal.toJNum, hp1,
      List.filterMap_cons, List.getElem?_cons_zero, Option.some_bind,
      show List.range 1 = [0] from rfl]
  have hset2 : processSet (.num 1) (.num 2) (some "e") "set2" [2, 5] [3] = [] := by
    norm_num [processSet, jsDiv, JNum.toPrecision3, JNum.lt, JNum.lt_nan,
      JVal.toJNum, hp2, List.filterMap_cons, List.getElem?_cons_zero,
      List.getElem?_cons_succ, List.getElem?_nil, Option.some_bind,
      show List.range 2 = [0, 1] from rfl]
  have hstep : step ⟨1, [(0, "e")], JVal.num 1, JVal.num 2, true, true, none⟩
      (.msg ⟨.absent, .undef, .undef, .val ([3], [2, 5]), none, some 0⟩) =
      onData ⟨1, [(0, "e")], JVal.num 1, JVal.num 2, true, true, none⟩
        (.val ([3], [2, 5])) (some 0) :=
    (step_of_not_exited rfl _).trans rfl
  refine ⟨by simp, ?_⟩
  rw [hstep]
  norm_num [onData, lookupEvents, List.find?, hset1, hset2, sendStamped,
    show List.range' 1 1 = [1] from rfl, List.zip_cons_cons]

/-- C4 amended: a data response with mismatched series lengths is not a
fatal fault — the handler returns normally — but it is not discarded
either: each index of a primary series is still evaluated; an index whose
reference access is out of range divides by `undefined`, giving `NaN`,
which never satisfies the bounds, so such indices emit nothing, while
indices present in both series are evaluated as usual. -/
theorem C4_amended (s : ClientState) (h : s.exited = none) (s1 s2 : List ℚ)
    (_hlen : s1.length ≠ s2.length) (rq : Option ℕ) (mnv mxv : JVal)
    (msgF : Option String) :
    (∃ s' out, step s (.msg ⟨.absent, mnv, mxv, .val (s1, s2), msgF, rq⟩) =
        .ok s' out) ∧
      ∀ (eventId : Option String) (set : String) (i : ℕ) (d : JNum),
        s2[i]? = none →
        Command.confirm eventId set i d ∉
          processSet s.minDiv s.maxDiv eventId set s1 s2 := by
  constructor
  · exact ⟨_, _, (step_of_not_exited h _).trans rfl⟩
  · intro eventId set i d hnone hmem
    rcases mem_processSet_iff.mp hmem with ⟨n, a, ha, hcond, heq⟩
    rw [Command.confirm.injEq] at heq
    obtain ⟨-, -, hin, -⟩ := heq
    subst hin
    rw [hnone] at hcond
    simp [jsDiv, JNum.toPrecision3, JNum.lt_nan, JNum.nan_lt] at hcond

/-- Witness for C4: the mismatched pair `([2, 5], [3])` is handled without
a throw, and index 1 of the primary `[2, 5]` (whose reference access
`[3][1]` is `undefined`) emits no confirmation, not even one with the
in-bounds ratio `1.5`. -/
theorem C4_amended_witness :
    (⟨0, [], JVal.num 1, JVal.num 2, true, true, none⟩ : ClientState).exited =
        none ∧
      ([2, 5] : List ℚ).length ≠ ([3] : List ℚ).length ∧
      ([3] : List ℚ)[1]? = none ∧
      (∃ s' out, step ⟨0, [], JVal.num 1, JVal.num 2, true, true, none⟩
          (.msg ⟨.absent, .undef, .undef, .val ([2, 5], [3]), none, none⟩) =
          .ok s' out) ∧
      Command.confirm none "set1" 1 (.num (3 / 2)) ∉
        processSet (JVal.num 1) (JVal.num 2) none "set1" [2, 5] [3] := by
  have h := C4_amended ⟨0, [], JVal.num 1, JVal.num 2, true, true, none⟩ rfl
    [2, 5] [3] (by simp) none .undef .undef none
  exact ⟨rfl, by simp, rfl, h.1, h.2 none "set1" 1 (.num (3 / 2)) rfl⟩
